import Mathlib

/-!
Verification of the tbf VOD-recovery tool core against its specification.

The definitions below are a shallow embedding of the Rust sources:
URL candidate generation and SHA-1 hashing (src/twitch/vods.rs,
external sha1 crate modelled by the standard SHA-1 algorithm),
timestamp parsing (src/util.rs, the external time crate modelled by its
documented format behaviour), CDN list compilation (src/util.rs),
playlist repair (src/twitch/vods.rs) and clip bruteforcing
(src/twitch/clips.rs).  Machine integers are modelled as Nat/Int with
explicit reduction mod 2^32 where the algorithm requires wrapping.
Strings are modelled at the char-list level; all strings involved in
the claims are ASCII, where Rust byte indexing and char indexing agree.
-/

set_option maxRecDepth 20000

/-! ### Generic char-list utilities -/

/-- Check that the char list pre is a prefix of the char list l. -/
def clIsPrefixOf : List Char → List Char → Bool
  | [], _ => true
  | _ :: _, [] => false
  | a :: as, b :: bs => a = b && clIsPrefixOf as bs

/-- Check that pat occurs as a contiguous sublist of l (Rust str::contains
with an ASCII pattern). -/
def clContains (pat : List Char) : List Char → Bool
  | [] => clIsPrefixOf pat []
  | c :: rest => clIsPrefixOf pat (c :: rest) || clContains pat rest

/-- Rust str::contains for ASCII needles: byte-substring search agrees with
char-substring search because ASCII bytes only match at char boundaries. -/
def strContains (s pat : String) : Bool := clContains pat.data s.data

/-- Split a char list at every occurrence of the separator char. -/
def clSplit (sep : Char) : List Char → List (List Char)
  | [] => [[]]
  | c :: rest =>
    let r := clSplit sep rest
    if c = sep then [] :: r
    else
      match r with
      | [] => [[c]]
      | h :: t => (c :: h) :: t

/-- Rust str::ends_with for ASCII suffixes. -/
def strEndsWith (s suf : String) : Bool :=
  clIsPrefixOf suf.data.reverse s.data.reverse

/-! ### SHA-1 (the sha1 crate used in src/twitch/vods.rs), over byte lists -/

/-- Truncate to a 32-bit word. -/
def w32 (n : Nat) : Nat := n % 4294967296

/-- Rotate a 32-bit word left by k bits. -/
def rotl (k n : Nat) : Nat := ((n <<< k) ||| (n >>> (32 - k))) % 4294967296

/-- SHA-1 round function, by round index. -/
def sha1f (i b c d : Nat) : Nat :=
  if i < 20 then (b &&& c) ||| ((b ^^^ 4294967295) &&& d)
  else if i < 40 then b ^^^ c ^^^ d
  else if i < 60 then (b &&& c) ||| (b &&& d) ||| (c &&& d)
  else b ^^^ c ^^^ d

/-- SHA-1 round constant, by round index. -/
def sha1k (i : Nat) : Nat :=
  if i < 20 then 0x5A827999
  else if i < 40 then 0x6ED9EBA1
  else if i < 60 then 0x8F1BBCDC
  else 0xCA62C1D6

/-- Big-endian 32-bit words from a byte list. -/
def sha1Words : List Nat → List Nat
  | b0 :: b1 :: b2 :: b3 :: rest =>
    (((b0 * 256 + b1) * 256 + b2) * 256 + b3) :: sha1Words rest
  | _ => []

/-- Extend the 16-word schedule by k more words. -/
def sha1Extend : Nat → List Nat → List Nat
  | 0, w => w
  | k + 1, w =>
    let n := w.length
    let x := rotl 1 ((w.getD (n - 3) 0) ^^^ (w.getD (n - 8) 0) ^^^
      (w.getD (n - 14) 0) ^^^ (w.getD (n - 16) 0))
    sha1Extend k (w ++ [x])

/-- One SHA-1 round on the five-word state. -/
def sha1Round (st : Nat × Nat × Nat × Nat × Nat) (iw : Nat × Nat) :
    Nat × Nat × Nat × Nat × Nat :=
  let (a, b, c, d, e) := st
  let (i, wt) := iw
  let temp := w32 (rotl 5 a + sha1f i b c d + e + sha1k i + wt)
  (temp, a, rotl 30 b, c, d)

/-- Process one 64-byte block. -/
def sha1Block (h : Nat × Nat × Nat × Nat × Nat) (block : List Nat) :
    Nat × Nat × Nat × Nat × Nat :=
  let ws := sha1Extend 64 (sha1Words block)
  let r := ws.enum.foldl sha1Round h
  (w32 (h.1 + r.1), w32 (h.2.1 + r.2.1), w32 (h.2.2.1 + r.2.2.1),
    w32 (h.2.2.2.1 + r.2.2.2.1), w32 (h.2.2.2.2 + r.2.2.2.2))

/-- Big-endian 8-byte encoding of a 64-bit length. -/
def sha1Be8 (n : Nat) : List Nat :=
  [(n >>> 56) % 256, (n >>> 48) % 256, (n >>> 40) % 256, (n >>> 32) % 256,
    (n >>> 24) % 256, (n >>> 16) % 256, (n >>> 8) % 256, n % 256]

/-- Big-endian 4-byte encoding of a 32-bit word. -/
def sha1Be4 (n : Nat) : List Nat :=
  [(n >>> 24) % 256, (n >>> 16) % 256, (n >>> 8) % 256, n % 256]

/-- SHA-1 message padding: 0x80, zeros to 56 mod 64, 64-bit bit length. -/
def sha1Pad (msg : List Nat) : List Nat :=
  let len := msg.length
  msg ++ 128 :: List.replicate ((119 - len % 64) % 64) 0 ++ sha1Be8 (len * 8)

/-- Cut a byte list into 64-byte blocks (fuel-indexed, fuel at least length). -/
def sha1Chunks : Nat → List Nat → List (List Nat)
  | 0, _ => []
  | _ + 1, [] => []
  | f + 1, l => l.take 64 :: sha1Chunks f (l.drop 64)

/-- The SHA-1 digest (20 bytes) of a byte list. -/
def sha1Digest (msg : List Nat) : List Nat :=
  let padded := sha1Pad msg
  let h := (sha1Chunks padded.length padded).foldl sha1Block
    (0x67452301, 0xEFCDAB89, 0x98BADCFE, 0x10325476, 0xC3D2E1F0)
  sha1Be4 h.1 ++ sha1Be4 h.2.1 ++ sha1Be4 h.2.2.1 ++ sha1Be4 h.2.2.2.1 ++
    sha1Be4 h.2.2.2.2

/-- Lowercase hex digit. -/
def hexDigit (n : Nat) : Char :=
  if n < 10 then Char.ofNat (48 + n) else Char.ofNat (87 + n)

/-- Lowercase hex rendering of a byte list. -/
def bytesHex (bs : List Nat) : List Char :=
  bs.foldr (fun b acc => hexDigit (b / 16) :: hexDigit (b % 16) :: acc) []

/-- ASCII bytes of a string (claims only involve ASCII data, where UTF-8
bytes and chars coincide). -/
def strBytes (s : String) : List Nat := s.data.map Char.toNat

/-- Lowercase hex SHA-1 digest of a string, as in format s!... of the Rust
digest value. -/
def sha1Hex (s : String) : String := String.mk (bytesHex (sha1Digest (strBytes s)))

/-! ### Candidate URL generation (src/twitch/vods.rs, bruteforcer and exact)

Both functions hash the string username_vod_number with SHA-1, render the
digest in lowercase hex, and keep the first 20 hex characters.
-/

/-- The 20-hex-char namespace hash: hex slice 0..20 of the SHA-1 digest of
username_vod_number, exactly as computed at src/twitch/vods.rs lines 45-48
and 161-164. -/
def vod_hash (username : String) (vod number : Int) : String :=
  String.mk ((sha1Hex (username ++ "_" ++ toString vod ++ "_" ++
    toString number)).data.take 20)

/-- The TwitchURL record of src/twitch/models.rs as used by bruteforcer. -/
structure TwitchURL where
  full_url : String
  hash : String
  timestamp : Int
deriving DecidableEq, Repr

/-- One candidate per (cdn, number) pair, as pushed at
src/twitch/vods.rs lines 50-63. -/
def mk_candidate (username : String) (vod number : Int) (cdn : String) :
    TwitchURL :=
  { full_url := "https://" ++ cdn ++ "/" ++ vod_hash username vod number ++
      "_" ++ username ++ "_" ++ toString vod ++ "_" ++ toString number ++
      "/chunked/index-dvr.m3u8"
    hash := vod_hash username vod number
    timestamp := number }

/-- The inclusive Rust range number1..number2+1 of the bruteforcer loop at
src/twitch/vods.rs line 44, as a list of Ints. -/
def int_range_incl (n1 n2 : Int) : List Int :=
  (List.range (n2 - n1 + 1).toNat).map (fun i : Nat => n1 + (i : Int))

/-- The full candidate list built by the bruteforcer before probing
(src/twitch/vods.rs lines 40-64): every epoch in the inclusive range
crossed with every CDN hostname. -/
def bruteforcer_candidates (username : String) (vod n1 n2 : Int)
    (cdns : List String) : List TwitchURL :=
  (int_range_incl n1 n2).flatMap
    (fun number => cdns.map (fun cdn => mk_candidate username vod number cdn))

/-! ### Probe response classification

src/twitch/vods.rs lines 74-101 (VOD bruteforcer) and
src/twitch/clips.rs lines 144-160 and 173-189 (clip bruteforce).
A response is either an HTTP status or a transport-level reqwest error.
-/

/-- Outcome of one HTTP probe as seen by the classification code. -/
inductive ProbeResponse where
  | status (code : Nat)
  | transportError
deriving DecidableEq, Repr

/-- How the probing loops classify a response. -/
inductive ProbeOutcome where
  | hit
  | missExpected
  | missThrottleFlagged
  | missTransport
deriving DecidableEq, Repr

/-- VOD bruteforcer classification (src/twitch/vods.rs lines 74-101):
200 keeps the candidate, 403 and 404 continue silently, any other status
prints a throttling warning, a reqwest error prints the error; every
non-200 case yields None and nothing is retried. -/
def vod_classify : ProbeResponse → ProbeOutcome
  | .status code =>
    if code = 200 then .hit
    else if code = 403 then .missExpected
    else if code = 404 then .missExpected
    else .missThrottleFlagged
  | .transportError => .missTransport

/-- Clip bruteforce classification (src/twitch/clips.rs lines 144-160):
200 keeps the URL, 403 continues silently, any OTHER status, including
404, prints the throttling warning; a send error prints the error. -/
def clip_classify : ProbeResponse → ProbeOutcome
  | .status code =>
    if code = 200 then .hit
    else if code = 403 then .missExpected
    else .missThrottleFlagged
  | .transportError => .missTransport

/-- The per-candidate map of the bruteforcer stream: Some url on a hit,
None otherwise (src/twitch/vods.rs lines 68-105). -/
def vod_fetches (results : List (TwitchURL × ProbeResponse)) :
    List (Option TwitchURL) :=
  results.map (fun p => if vod_classify p.2 = .hit then some p.1 else none)

/-- fetches.into_iter().flatten().next() at src/twitch/vods.rs line 107. -/
def vod_first_hit (results : List (TwitchURL × ProbeResponse)) :
    Option TwitchURL :=
  ((vod_fetches results).filterMap id).head?

/-! ### Clip bruteforce URL generation (src/twitch/clips.rs lines 120-191) -/

/-- The half-open Rust range start..end of src/twitch/clips.rs lines
130-131 (note: NOT inclusive of the end bound). -/
def rust_range (start stop : Int) : List Int :=
  (List.range (stop - start).toNat).map (fun i : Nat => start + (i : Int))

/-- The clip offset URL for one offset. -/
def clip_url (vod n : Int) : String :=
  "https://clips-media-assets2.twitch.tv/" ++ toString vod ++ "-offset-" ++
    toString n ++ ".mp4"

/-- All URLs probed by clip_bruteforce for a vod id and a start/end pair:
one per offset in the half-open range start..end. -/
def clip_urls (vod start stop : Int) : List String :=
  (rust_range start stop).map (fun n => clip_url vod n)

/-! ### Playlist repair (fix, src/twitch/vods.rs lines 196-360) -/

/-- The host gate at src/twitch/vods.rs line 197: a plain substring test on
the whole URL string, not a host comparison. -/
def fix_host_ok (url : String) : Bool :=
  strContains url "twitch.tv" || strContains url "cloudfront.net"

/-- The captures of FIX_REGEX = [^/]+ over the URL: the maximal runs of
non-slash characters (src/twitch/vods.rs lines 20-22 and 202-205). -/
def split_non_slash (url : String) : List String :=
  ((clSplit '/' url.data).map String.mk).filter (fun s => s ≠ "")

/-- What fix does before its first network request: the URL gate, then the
unchecked indexing base_url_parts[1]/[2]/[3] (src/twitch/vods.rs lines
196-209).  unsupportedHost models the early Err(PlaylistFix::URL) return,
panicIndexOOB models the index-out-of-bounds panic, and netFetch carries
the base URL used by the subsequent GET. -/
inductive FixStage where
  | unsupportedHost
  | panicIndexOOB
  | netFetch (baseUrl : String)
deriving DecidableEq, Repr

/-- The pre-network phase of fix.  The three indexings happen in source
order, each panicking as soon as it is out of bounds. -/
def fix_start (url : String) : FixStage :=
  if fix_host_ok url then
    let parts := split_non_slash url
    match parts[1]? with
    | none => .panicIndexOOB
    | some p1 =>
      match parts[2]? with
      | none => .panicIndexOOB
      | some p2 =>
        match parts[3]? with
        | none => .panicIndexOOB
        | some p3 => .netFetch ("https://" ++ p1 ++ "/" ++ p2 ++ "/" ++ p3 ++ "/")
  else .unsupportedHost

/-- A media segment: URI plus duration.  The duration type is kept
abstract (it is an f32 in the source and is only ever copied). -/
structure MediaSeg (δ : Type) where
  uri : String
  duration : δ
deriving DecidableEq, Repr

/-- Pattern-mode URI resolution for one segment (src/twitch/vods.rs lines
320-338): the segment URI is prefixed with the base URL; if the original
URI contains the substring unmuted, the last 11 characters of that full
URL are dropped and -muted.ts is appended, otherwise the full URL is kept
as is. -/
def pattern_rewrite (base uri : String) : String :=
  let url := base ++ uri
  if strContains uri "unmuted" then
    String.mk (url.data.take (url.data.length - 11)) ++ "-muted.ts"
  else url

/-- Pattern-mode segment list reconstruction: one output segment per input
segment, in order, with the original duration. -/
def fix_pattern_segments {δ : Type} (base : String)
    (segs : List (MediaSeg δ)) : List (MediaSeg δ) :=
  segs.map (fun s => { uri := pattern_rewrite base s.uri, duration := s.duration })

/-- The playlist that fix writes to disk: copied container fields (kept
abstract as μ) plus the resolved segments. -/
structure PlaylistOut (μ δ : Type) where
  meta : μ
  segments : List (MediaSeg δ)
deriving DecidableEq, Repr

/-- What fix writes after the playlist body download, as a function of the
parse result (src/twitch/vods.rs lines 222-359, pattern mode).  On parse
success the copied header fields and the resolved segments are written; on
parse failure the match arm at line 341 only logs, so execution falls
through to File::create at line 351 and the default-initialised playlist
(default header, zero segments) is still written.  The value none is never
produced: a write is always attempted. -/
def fix_file_written {μ δ ε : Type} (defaultMeta : μ) (base : String)
    (parsed : Except ε (μ × List (MediaSeg δ))) : Option (PlaylistOut μ δ) :=
  match parsed with
  | .error _ => some { meta := defaultMeta, segments := [] }
  | .ok (m, segs) => some { meta := m, segments := fix_pattern_segments base segs }

/-! ### Timestamp parsing (src/util.rs lines 261-294)

The source delegates the individual formats to the time crate; the readers
below model the four formats it uses (the format_description patterns with
zero-padded fixed-width numeric fields, and the well-known Rfc3339), each
validated like time validates calendar components, with the result
converted to a unix epoch via assume_utc().unix_timestamp().
-/

/-- Read exactly two decimal digits. -/
def read_d2 : List Char → Option (Nat × List Char)
  | a :: b :: rest =>
    if a.isDigit && b.isDigit then
      some ((a.toNat - 48) * 10 + (b.toNat - 48), rest)
    else none
  | _ => none

/-- Read exactly four decimal digits. -/
def read_d4 : List Char → Option (Nat × List Char)
  | a :: b :: c :: d :: rest =>
    if a.isDigit && b.isDigit && c.isDigit && d.isDigit then
      some ((((a.toNat - 48) * 10 + (b.toNat - 48)) * 10 + (c.toNat - 48)) * 10
        + (d.toNat - 48), rest)
    else none
  | _ => none

/-- Expect one literal char. -/
def expect_char (c : Char) : List Char → Option (List Char)
  | x :: rest => if x = c then some rest else none
  | [] => none

/-- Gregorian leap year. -/
def is_leap (y : Int) : Bool := (y % 4 == 0 && y % 100 != 0) || y % 400 == 0

/-- Days in a month, leap-aware. -/
def days_in_month (y : Int) (m : Nat) : Nat :=
  if m = 2 then (if is_leap y then 29 else 28)
  else if m = 4 || m = 6 || m = 9 || m = 11 then 30
  else 31

/-- Days since 1970-01-01 for a civil date (Howard Hinnant algorithm, as
any correct civil-to-epoch conversion; the time crate agrees on its whole
domain). -/
def days_from_civil (y : Int) (m d : Nat) : Int :=
  let yAdj : Int := if m ≤ 2 then y - 1 else y
  let era : Int := Int.fdiv yAdj 400
  let yoe : Int := yAdj - era * 400
  let mp : Int := if m ≤ 2 then (m : Int) + 9 else (m : Int) - 3
  let doy : Int := (153 * mp + 2) / 5 + (d : Int) - 1
  era * 146097 + (yoe * 365 + yoe / 4 - yoe / 100 + doy) - 719468

/-- Range-validate the calendar components and convert to a unix epoch,
interpreted as UTC (assume_utc().unix_timestamp() in the source). -/
def finish_dt (y : Int) (mo d h mi s : Nat) : Option Int :=
  if 1 ≤ mo && mo ≤ 12 && 1 ≤ d && d ≤ days_in_month y mo &&
      h ≤ 23 && mi ≤ 59 && s ≤ 59 then
    some (days_from_civil y mo d * 86400 + ((h * 3600 + mi * 60 + s : Nat) : Int))
  else none

/-- Read the common year-month-day hour:minute:second layout. -/
def read_ymd_hms (l : List Char) : Option (Int × Nat × Nat × Nat × Nat × Nat × List Char) := do
  let (y, l) ← read_d4 l
  let l ← expect_char '-' l
  let (mo, l) ← read_d2 l
  let l ← expect_char '-' l
  let (d, l) ← read_d2 l
  let l ← expect_char ' ' l
  let (h, l) ← read_d2 l
  let l ← expect_char ':' l
  let (mi, l) ← read_d2 l
  let l ← expect_char ':' l
  let (s, l) ← read_d2 l
  pure ((y : Int), mo, d, h, mi, s, l)

/-- Rule 2: the explicit pattern YYYY-MM-DD HH:MM:SS UTC. -/
def parse_with_utc (l : List Char) : Option Int := do
  let (y, mo, d, h, mi, s, l) ← read_ymd_hms l
  let l ← expect_char ' ' l
  let l ← expect_char 'U' l
  let l ← expect_char 'T' l
  let l ← expect_char 'C' l
  match l with
  | [] => finish_dt y mo d h mi s
  | _ => none

/-- Rule 4: YYYY-MM-DD HH:MM:SS with no zone. -/
def parse_wo_utc (l : List Char) : Option Int := do
  let (y, mo, d, h, mi, s, l) ← read_ymd_hms l
  match l with
  | [] => finish_dt y mo d h mi s
  | _ => none

/-- Rule 5: DD-MM-YYYY HH:MM with no seconds. -/
def parse_wo_sec (l : List Char) : Option Int := do
  let (d, l) ← read_d2 l
  let l ← expect_char '-' l
  let (mo, l) ← read_d2 l
  let l ← expect_char '-' l
  let (y, l) ← read_d4 l
  let l ← expect_char ' ' l
  let (h, l) ← read_d2 l
  let l ← expect_char ':' l
  let (mi, l) ← read_d2 l
  match l with
  | [] => finish_dt (y : Int) mo d h mi 0
  | _ => none

/-- Consume an optional fractional-seconds part: a dot followed by at
least one digit.  The value is discarded (unix_timestamp truncates). -/
def skip_fraction : List Char → Option (List Char)
  | '.' :: rest =>
    match rest with
    | c :: _ =>
      if c.isDigit then some (rest.dropWhile Char.isDigit) else none
    | [] => none
  | l => some l

/-- The trailing RFC 3339 offset: Z, or sign hh:mm with in-range fields.
The parsed offset is discarded, because the source parses into a
PrimitiveDateTime, which keeps only the date and time components. -/
def read_rfc_offset (l : List Char) : Option (List Char)
  := match l with
  | 'Z' :: rest => some rest
  | 'z' :: rest => some rest
  | c :: rest =>
    if c = '+' || c = '-' then do
      let (oh, l) ← read_d2 rest
      let l ← expect_char ':' l
      let (om, l) ← read_d2 l
      if oh ≤ 23 && om ≤ 59 then some l else none
    else none
  | [] => none

/-- Rule 3: the well-known RFC 3339 format.  The date-time part is kept,
the offset is syntax-checked and dropped (PrimitiveDateTime semantics). -/
def parse_rfc3339 (l : List Char) : Option Int := do
  let (y, l) ← read_d4 l
  let l ← expect_char '-' l
  let (mo, l) ← read_d2 l
  let l ← expect_char '-' l
  let (d, l) ← read_d2 l
  let l ← (match l with
    | 'T' :: rest => some rest
    | 't' :: rest => some rest
    | _ => none)
  let (h, l) ← read_d2 l
  let l ← expect_char ':' l
  let (mi, l) ← read_d2 l
  let l ← expect_char ':' l
  let (s, l) ← read_d2 l
  let l ← skip_fraction l
  let l ← read_rfc_offset l
  match l with
  | [] => finish_dt (y : Int) mo d h mi s
  | _ => none

/-- Rule 1: the all-digits literal epoch, via Rust str::parse::<i64>
(empty input or i64 overflow is an error). -/
def parse_i64_digits (l : List Char) : Option Int :=
  match l with
  | [] => none
  | _ =>
    let v : Nat := l.foldl (fun acc c => acc * 10 + (c.toNat - 48)) 0
    if v ≤ 9223372036854775807 then some ((v : Nat) : Int) else none

/-- parse_timestamp from src/util.rs lines 261-294.  Errors are collapsed
to none (the source returns distinct error values but every claim only
distinguishes success from failure).  RE_UNIX matches digits-only strings
(including the empty string), RE_UTC matches any string containing the
substring UTC. -/
def parse_timestamp (timestamp : String) : Option Int :=
  if timestamp.data.all Char.isDigit then
    parse_i64_digits timestamp.data
  else
    if strContains timestamp "UTC" then
      parse_with_utc timestamp.data
    else
      match parse_rfc3339 timestamp.data with
      | some v => some v
      | none =>
        match parse_wo_utc timestamp.data with
        | some v => some v
        | none => parse_wo_sec timestamp.data

example : parse_timestamp "1657871396" = some 1657871396 := by decide
example : parse_timestamp "2022-07-15T07:49:56+00:00" = some 1657871396 := by decide
example : parse_timestamp "2022-07-15 07:49:56 UTC" = some 1657871396 := by decide
example : parse_timestamp "2022-07-15 07:49:56" = some 1657871396 := by decide
example : parse_timestamp "15-07-2022 07:49" = some 1657871340 := by decide
example : parse_timestamp "2022-07-15 0749" = none := by decide

/-! ### CDN list compilation (src/util.rs lines 296-428) -/

/-- Rust char::is_whitespace: the Unicode White_Space property. -/
def rust_is_whitespace (c : Char) : Bool :=
  (9 ≤ c.toNat && c.toNat ≤ 13) || c.toNat = 32 || c.toNat = 0x85 ||
  c.toNat = 0xA0 || c.toNat = 0x1680 ||
  (0x2000 ≤ c.toNat && c.toNat ≤ 0x200A) ||
  c.toNat = 0x2028 || c.toNat = 0x2029 || c.toNat = 0x202F ||
  c.toNat = 0x205F || c.toNat = 0x3000

/-- Strip one trailing carriage return (for line endings of the form CRLF). -/
def strip_cr (l : List Char) : List Char :=
  if l.getLast? = some '\r' then l.dropLast else l

/-- Rust str::lines: split at every newline, a trailing carriage return
before a newline is removed, a final empty piece produced by a trailing
newline is dropped, a final piece with no line ending is kept verbatim. -/
def rust_lines (s : String) : List String :=
  let ps := clSplit '\n' s.data
  let body := ps.dropLast.map strip_cr
  let tail := match ps.getLast? with
    | some [] => []
    | some l => [l]
    | none => []
  (body ++ tail).map String.mk

/-- cdn_string.retain of src/util.rs line 398: remove every whitespace
char from the string. -/
def strip_whitespace (s : String) : String :=
  String.mk (s.data.filter (fun c => !rust_is_whitespace c))

/-- Rust str::trim (used nowhere in the source; needed to state the spec
reading of the txt branch). -/
def str_trim (s : String) : String :=
  String.mk (((s.data.dropWhile rust_is_whitespace).reverse.dropWhile
    rust_is_whitespace).reverse)

/-- Byte-lexicographic order on strings (Rust Ord for String; on valid
UTF-8, byte order and codepoint order coincide). -/
def clLe : List Char → List Char → Bool
  | [], _ => true
  | _ :: _, [] => false
  | a :: as, b :: bs =>
    if a.toNat < b.toNat then true
    else if b.toNat < a.toNat then false
    else clLe as bs

/-- String comparison used by sort_unstable on Vec of String. -/
def str_le (a b : String) : Bool := clLe a.data b.data

/-- The propositional form of str_le, for the sorting lemmas. -/
def str_le_rel : String → String → Prop := fun a b => str_le a b = true

instance : DecidableRel str_le_rel :=
  fun a b => inferInstanceAs (Decidable (str_le a b = true))

/-- Rust Vec::dedup: remove consecutive duplicates. -/
def vec_dedup {α : Type} [DecidableEq α] : List α → List α
  | [] => []
  | [a] => [a]
  | a :: b :: t => if a = b then vec_dedup (b :: t) else a :: vec_dedup (b :: t)

/-- return_vec.sort_unstable(); return_vec.dedup() — an unstable sort under
a total antisymmetric order has a unique sorted result, so insertion sort
models it exactly. -/
def sort_dedup (l : List String) : List String :=
  vec_dedup (List.insertionSort str_le_rel l)

/-- Outcome of one compile_cdn_list call: either a returned hostname
vector, or a process abort caused by a panicking unwrap inside the
function. -/
inductive CdnResult where
  | ok (cdns : List String)
  | panicked
deriving DecidableEq, Repr

/-- The override-file situations distinguished by compile_cdn_list.  The
json, toml, yaml and yml branches of the source are textually identical up
to the external parser invoked, so they are modelled by one constructor
carrying the abstract parse result (the cdns array on success).
readFailed is the situation where the file opens but read_to_string
returns Err - for instance contents that are not valid UTF-8; the source
unwraps that result (util.rs line 328 when the path has an extension,
line 396 when it has none), so the call panics.  The extPresent flag
records which of the two unwrap sites is hit.  The companion
ext.to_str().unwrap() at util.rs line 330 can never panic and gets no
constructor: the path arrives as a Rust String, which is valid UTF-8, and
an extension sliced out of it always converts back to str. -/
inductive CdnSource where
  | noPath
  | openFailed
  | readFailed (extPresent : Bool)
  | structuredOk (cdns : List String)
  | structuredErr
  | txtFile (contents : String)
  | noExtFile (contents : String)
  | unknownExt
deriving DecidableEq, Repr

/-- compile_cdn_list from src/util.rs lines 296-428, as a function of the
baseline CDN_URLS list and the override-file situation.  Only branches
that add entries sort and dedup; open failures, parse failures and
unrecognized extensions return the baseline vector untouched; a read
failure after a successful open panics on the unwrap and returns
nothing.  The txt branch splits into verbatim lines (no trimming, no
blank-line dropping); the no-extension branch first deletes every
whitespace char from the contents, fusing all lines into one. -/
def compile_cdn_list (baseline : List String) : CdnSource → CdnResult
  | .noPath => .ok baseline
  | .openFailed => .ok baseline
  | .readFailed _ => .panicked
  | .structuredOk cdns => .ok (sort_dedup (baseline ++ cdns))
  | .structuredErr => .ok baseline
  | .txtFile c => .ok (sort_dedup (baseline ++ rust_lines c))
  | .noExtFile c =>
    .ok (sort_dedup (baseline ++ rust_lines (strip_whitespace c)))
  | .unknownExt => .ok baseline

/-- The spec reading of the txt branch: one hostname per line,
whitespace-trimmed, blank lines dropped, unioned with the baseline.
Stated only to be compared against the source behaviour. -/
def compile_txt_spec (baseline : List String) (contents : String) : List String :=
  sort_dedup (baseline ++
    ((rust_lines contents).map str_trim).filter (fun s => s ≠ ""))

/-- Modelled from the spec: the built-in CDN_URLS constant lives in
src/twitch/models.rs, which is not among the given sources.  The spec
CDNSet invariant describes it as a fixed hostname list that is
deduplicated and sorted; the concrete stand-in below uses the mirror
hostnames that appear in the repository test expectations. -/
def CDN_URLS_spec : List String :=
  ["d1m7jfoe9zdc1j.cloudfront.net", "d2vjef5jvl6bfs.cloudfront.net",
    "vod-secure.twitch.tv"]

example : compile_cdn_list ["b.com"] (.txtFile "a.com \n\nz.com") =
    .ok ["", "a.com ", "b.com", "z.com"] := by decide
example : compile_txt_spec ["b.com"] "a.com \n\nz.com" =
    ["a.com", "b.com", "z.com"] := by decide
example : compile_cdn_list CDN_URLS_spec (.txtFile "test.cloudflare.net\n") =
    .ok ["d1m7jfoe9zdc1j.cloudfront.net", "d2vjef5jvl6bfs.cloudfront.net",
      "test.cloudflare.net", "vod-secure.twitch.tv"] := by decide
example : compile_cdn_list ["b.com"] (.readFailed true) = .panicked := by decide
example : rust_lines "a\r\nb\r" = ["a", "b\r"] := by decide
example : strip_whitespace "a.com\nb.com\n" = "a.comb.com" := by decide

example : vod_hash "dansgaming" 42218705421 1622854217 = "d3dcbaf880c9e36ed8c8" := by decide
example : fix_start "https://twitch.tv" = .panicIndexOOB := by decide
example : fix_start "https://evil.example.com/twitch.tv/b/c" =
    .netFetch "https://evil.example.com/twitch.tv/b/" := by decide
example : fix_start "https://example.com/a/b/c" = .unsupportedHost := by decide
example : clip_urls 1 0 2 = ["https://clips-media-assets2.twitch.tv/1-offset-0.mp4",
  "https://clips-media-assets2.twitch.tv/1-offset-1.mp4"] := by decide
example : pattern_rewrite "https://d.cloudfront.net/x/chunked/" "5-unmuted.ts" =
    "https://d.cloudfront.net/x/chunked/5-muted.ts" := by decide

/-! ### Order and dedup lemmas -/

theorem char_toNat_inj {a b : Char} (h : a.toNat = b.toNat) : a = b := by
  have ha := Char.ofNat_toNat a
  rw [h, Char.ofNat_toNat] at ha
  exact ha.symm

theorem clLe_total : ∀ a b : List Char, clLe a b = true ∨ clLe b a = true
  | [], _ => Or.inl rfl
  | _ :: _, [] => Or.inr rfl
  | a :: as, b :: bs => by
    simp only [clLe]
    rcases Nat.lt_trichotomy a.toNat b.toNat with h | h | h
    · left; simp [h]
    · have hne : ¬ a.toNat < b.toNat := by omega
      have hne2 : ¬ b.toNat < a.toNat := by omega
      simpa [hne, hne2] using clLe_total as bs
    · right; simp [h]

theorem clLe_trans : ∀ a b c : List Char,
    clLe a b = true → clLe b c = true → clLe a c = true
  | [], _, _ => by intro _ _; rfl
  | _ :: _, [], _ => by intro h _; simp [clLe] at h
  | _ :: _, _ :: _, [] => by intro _ h; simp [clLe] at h
  | a :: as, b :: bs, c :: cs => by
    simp only [clLe]
    intro h1 h2
    split_ifs at h1 h2 ⊢ <;>
      first
      | rfl
      | omega
      | exact clLe_trans as bs cs h1 h2

theorem clLe_antisymm : ∀ a b : List Char,
    clLe a b = true → clLe b a = true → a = b
  | [], [] => by intro _ _; rfl
  | [], _ :: _ => by intro _ h; simp [clLe] at h
  | _ :: _, [] => by intro h _; simp [clLe] at h
  | a :: as, b :: bs => by
    simp only [clLe]
    intro h1 h2
    split_ifs at h1 h2 with hab hba <;>
      first
      | omega
      | exact absurd h1 Bool.false_ne_true
      | exact absurd h2 Bool.false_ne_true
      | exact congrArg₂ List.cons (char_toNat_inj (by omega))
          (clLe_antisymm as bs h1 h2)

theorem str_le_total (a b : String) : str_le_rel a b ∨ str_le_rel b a :=
  clLe_total a.data b.data

theorem str_le_trans {a b c : String} (h1 : str_le_rel a b)
    (h2 : str_le_rel b c) : str_le_rel a c :=
  clLe_trans a.data b.data c.data h1 h2

theorem str_le_antisymm {a b : String} (h1 : str_le_rel a b)
    (h2 : str_le_rel b a) : a = b := by
  have h := clLe_antisymm a.data b.data h1 h2
  cases a; cases b; cases h; rfl

instance : IsTotal String str_le_rel := ⟨str_le_total⟩

instance : IsTrans String str_le_rel := ⟨fun _ _ _ => str_le_trans⟩

theorem vec_dedup_sublist {α : Type} [DecidableEq α] :
    ∀ l : List α, List.Sublist (vec_dedup l) l
  | [] => by simp [vec_dedup]
  | [a] => by simp [vec_dedup]
  | a :: b :: t => by
    rw [vec_dedup]
    split
    · next h => exact (vec_dedup_sublist (b :: t)).cons a
    · next h => exact (vec_dedup_sublist (b :: t)).cons₂ a

theorem mem_vec_dedup {α : Type} [DecidableEq α] :
    ∀ (l : List α) (x : α), x ∈ vec_dedup l ↔ x ∈ l
  | [] => by simp [vec_dedup]
  | [a] => by simp [vec_dedup]
  | a :: b :: t => by
    intro x
    rw [vec_dedup]
    split
    · next h =>
      subst h
      rw [mem_vec_dedup (a :: t)]
      simp
    · next h =>
      constructor
      · intro hx
        rcases List.mem_cons.mp hx with h1 | h1
        · exact List.mem_cons.mpr (Or.inl h1)
        · exact List.mem_cons.mpr (Or.inr ((mem_vec_dedup (b :: t) x).mp h1))
      · intro hx
        rcases List.mem_cons.mp hx with h1 | h1
        · exact List.mem_cons.mpr (Or.inl h1)
        · exact List.mem_cons.mpr (Or.inr ((mem_vec_dedup (b :: t) x).mpr h1))

theorem vec_dedup_pairwise_strict {α : Type} [DecidableEq α]
    (R : α → α → Prop) (anti : ∀ a b, R a b → R b a → a = b) :
    ∀ l : List α, l.Pairwise R →
      (vec_dedup l).Pairwise (fun a b => R a b ∧ a ≠ b)
  | [] => by simp [vec_dedup]
  | [a] => by simp [vec_dedup]
  | a :: b :: t => by
    intro hp
    rw [vec_dedup]
    split
    · next h =>
      subst h
      exact vec_dedup_pairwise_strict R anti (a :: t) hp.of_cons
    · next h =>
      rcases List.pairwise_cons.mp hp with ⟨ha, hbt⟩
      refine List.pairwise_cons.mpr ⟨?_, vec_dedup_pairwise_strict R anti (b :: t) hbt⟩
      intro x hx
      have hxbt : x ∈ b :: t := (mem_vec_dedup (b :: t) x).mp hx
      refine ⟨ha x hxbt, ?_⟩
      intro hax
      subst hax
      rcases List.mem_cons.mp hxbt with h1 | h1
      · exact h h1
      · rcases List.pairwise_cons.mp hbt with ⟨hb, _⟩
        exact h (anti a b (ha b (List.mem_cons_self b t)) (hb a h1))

theorem mem_sort_dedup {l : List String} {x : String} :
    x ∈ sort_dedup l ↔ x ∈ l := by
  rw [sort_dedup, mem_vec_dedup]
  exact List.mem_insertionSort str_le_rel

theorem sort_dedup_pairwise (l : List String) :
    (sort_dedup l).Pairwise str_le_rel :=
  List.Pairwise.sublist (vec_dedup_sublist _)
    (List.sorted_insertionSort str_le_rel l)

theorem sort_dedup_strict (l : List String) :
    (sort_dedup l).Pairwise (fun a b => str_le_rel a b ∧ a ≠ b) :=
  vec_dedup_pairwise_strict str_le_rel (fun _ _ => str_le_antisymm)
    _ (List.sorted_insertionSort str_le_rel l)

theorem sort_dedup_nodup (l : List String) : (sort_dedup l).Nodup :=
  (sort_dedup_strict l).imp (fun h => h.2)

/-! ### Range membership lemmas -/

theorem mem_int_range_incl {n1 n2 n : Int} :
    n ∈ int_range_incl n1 n2 ↔ n1 ≤ n ∧ n ≤ n2 := by
  simp only [int_range_incl, List.mem_map, List.mem_range]
  constructor
  · rintro ⟨i, hi, rfl⟩
    omega
  · rintro ⟨h1, h2⟩
    exact ⟨(n - n1).toNat, by omega, by omega⟩

theorem mem_rust_range {s e n : Int} :
    n ∈ rust_range s e ↔ s ≤ n ∧ n < e := by
  simp only [rust_range, List.mem_map, List.mem_range]
  constructor
  · rintro ⟨i, hi, rfl⟩
    omega
  · rintro ⟨h1, h2⟩
    exact ⟨(n - s).toNat, by omega, by omega⟩

theorem clIsPrefixOf_append (p rest : List Char) :
    clIsPrefixOf p (p ++ rest) = true := by
  induction p with
  | nil => rfl
  | cons c cs ih => simp [clIsPrefixOf, ih]

theorem strEndsWith_append (s t : String) : strEndsWith (s ++ t) t = true := by
  rw [strEndsWith, String.data_append, List.reverse_append]
  exact clIsPrefixOf_append t.data.reverse s.data.reverse

/-! ### Claim theorems -/

/-- C3: parse_timestamp tries its rules in the fixed source order - an
all-digit text is parsed as a literal unix epoch, otherwise a text
containing UTC is parsed with the explicit UTC pattern, otherwise RFC
3339 is attempted, then the zone-less pattern, then the day-first pattern
without seconds; every successful parse is interpreted as UTC, and the
six literal examples of the spec table evaluate exactly as stated. -/
theorem C3_parse_timestamp_rule_order :
    (parse_timestamp "1657871396" = some 1657871396 ∧
      parse_timestamp "2022-07-15T07:49:56+00:00" = some 1657871396 ∧
      parse_timestamp "2022-07-15 07:49:56 UTC" = some 1657871396 ∧
      parse_timestamp "2022-07-15 07:49:56" = some 1657871396 ∧
      parse_timestamp "15-07-2022 07:49" = some 1657871340 ∧
      parse_timestamp "2022-07-15 0749" = none) ∧
    ∀ s : String,
      (s.data.all Char.isDigit = true →
        parse_timestamp s = parse_i64_digits s.data) ∧
      (s.data.all Char.isDigit = false → strContains s "UTC" = true →
        parse_timestamp s = parse_with_utc s.data) ∧
      (s.data.all Char.isDigit = false → strContains s "UTC" = false →
        parse_rfc3339 s.data = none → parse_wo_utc s.data = none →
        parse_timestamp s = parse_wo_sec s.data) ∧
      (s.data.all Char.isDigit = false → strContains s "UTC" = false →
        ∀ v : Int, parse_rfc3339 s.data = some v → parse_timestamp s = some v) ∧
      (s.data.all Char.isDigit = false → strContains s "UTC" = false →
        parse_rfc3339 s.data = none →
        ∀ v : Int, parse_wo_utc s.data = some v → parse_timestamp s = some v) := by
  refine ⟨⟨by decide, by decide, by decide, by decide, by decide, by decide⟩, ?_⟩
  intro s
  refine ⟨?_, ?_, ?_, ?_, ?_⟩
  · intro h
    simp [parse_timestamp, h]
  · intro h1 h2
    simp [parse_timestamp, h1, h2]
  · intro h1 h2 h3 h4
    simp [parse_timestamp, h1, h2, h3, h4]
  · intro h1 h2 v hv
    simp [parse_timestamp, h1, h2, hv]
  · intro h1 h2 h3 v hv
    simp [parse_timestamp, h1, h2, h3, hv]

/-- C3 witness: the rule-order theorem applied at the concrete input
15-07-2022 07:49, which reaches the fifth rule. -/
theorem C3_rule_order_witness :
    parse_timestamp "15-07-2022 07:49" = parse_wo_sec "15-07-2022 07:49".data :=
  (C3_parse_timestamp_rule_order.2 "15-07-2022 07:49").2.2.1
    (by decide) (by decide) (by decide) (by decide)

/-- C5: every candidate URL has the shape
https cdn hash_username_vod_epoch /chunked/index-dvr.m3u8 where the hash
is the first 20 lowercase hex characters of the SHA-1 digest of
username_vod_epoch; the hash is a pure function of its inputs (repeated
computation yields the same value); the bruteforcer candidate set is
exactly one such candidate per (epoch in range, cdn) pair; and the hash
of the repository test vector evaluates to the expected constant. -/
theorem C5_candidate_url_shape :
    vod_hash "dansgaming" 42218705421 1622854217 = "d3dcbaf880c9e36ed8c8" ∧
    (∀ (u : String) (v n : Int) (cdn : String),
      (mk_candidate u v n cdn).full_url =
        "https://" ++ cdn ++ "/" ++ vod_hash u v n ++ "_" ++ u ++ "_" ++
          toString v ++ "_" ++ toString n ++ "/chunked/index-dvr.m3u8" ∧
      (mk_candidate u v n cdn).hash = vod_hash u v n ∧
      vod_hash u v n =
        String.mk ((sha1Hex (u ++ "_" ++ toString v ++ "_" ++
          toString n)).data.take 20) ∧
      vod_hash u v n = vod_hash u v n) ∧
    ∀ (u : String) (v n1 n2 : Int) (cdns : List String) (t : TwitchURL),
      t ∈ bruteforcer_candidates u v n1 n2 cdns ↔
        ∃ n : Int, n1 ≤ n ∧ n ≤ n2 ∧ ∃ cdn ∈ cdns, t = mk_candidate u v n cdn := by
  refine ⟨by decide, fun u v n cdn => ⟨rfl, rfl, rfl, rfl⟩, ?_⟩
  intro u v n1 n2 cdns t
  simp only [bruteforcer_candidates, List.mem_flatMap, List.mem_map]
  constructor
  · rintro ⟨n, hn, cdn, hcdn, rfl⟩
    rcases mem_int_range_incl.mp hn with ⟨h1, h2⟩
    exact ⟨n, h1, h2, cdn, hcdn, rfl⟩
  · rintro ⟨n, h1, h2, cdn, hcdn, rfl⟩
    exact ⟨n, mem_int_range_incl.mpr ⟨h1, h2⟩, cdn, hcdn, rfl⟩

/-- C5 witness: the candidate characterization applied at the test-vector
inputs of the repository tests. -/
theorem C5_candidate_witness :
    mk_candidate "dansgaming" 42218705421 1622854217
        "d1m7jfoe9zdc1j.cloudfront.net" ∈
      bruteforcer_candidates "dansgaming" 42218705421 1622854216 1622854218
        CDN_URLS_spec :=
  (C5_candidate_url_shape.2.2 "dansgaming" 42218705421 1622854216 1622854218
    CDN_URLS_spec _).mpr
    ⟨1622854217, by decide, by decide, "d1m7jfoe9zdc1j.cloudfront.net",
      by decide, rfl⟩

/-- C9 counterexample: for start 0 and end 2 the clip bruteforce probes
two URLs, offsets 0 and 1 only, not the 3 = end - start + 1 URLs an
inclusive range would give; the claimed count is wrong and the end offset
is never probed. -/
theorem C9_counterexample :
    clip_urls 1 0 2 =
      ["https://clips-media-assets2.twitch.tv/1-offset-0.mp4",
        "https://clips-media-assets2.twitch.tv/1-offset-1.mp4"] ∧
    (clip_urls 1 0 2).length ≠ ((2 : Int) - 0 + 1).toNat := by
  exact ⟨by decide, by decide⟩

/-- C9 amended: clip bruteforce probes one URL per integer offset in the
HALF-OPEN range from start (inclusive) to end (exclusive) - end minus
start URLs in total - each of the form
https clips-media-assets2.twitch.tv vodId-offset-n .mp4. -/
theorem C9_clip_range_amended :
    ∀ vod start stop : Int,
      (clip_urls vod start stop).length = (stop - start).toNat ∧
      ∀ u : String, u ∈ clip_urls vod start stop ↔
        ∃ n : Int, start ≤ n ∧ n < stop ∧ u = clip_url vod n := by
  intro vod s e
  constructor
  · simp [clip_urls, rust_range]
  · intro u
    simp only [clip_urls, List.mem_map]
    constructor
    · rintro ⟨n, hn, rfl⟩
      rcases mem_rust_range.mp hn with ⟨h1, h2⟩
      exact ⟨n, h1, h2, rfl⟩
    · rintro ⟨n, h1, h2, rfl⟩
      exact ⟨n, mem_rust_range.mpr ⟨h1, h2⟩, rfl⟩

/-- C9 witness: the amended range characterization applied at vod 1,
start 0, end 2 and offset 0. -/
theorem C9_clip_range_witness : clip_url 1 0 ∈ clip_urls 1 0 2 :=
  ((C9_clip_range_amended 1 0 2).2 (clip_url 1 0)).mpr ⟨0, by decide, by decide, rfl⟩

/-- C6 counterexample: an override file that opens but whose contents
fail read_to_string - for instance a file that is not valid UTF-8 -
makes compile_cdn_list panic on the unwrap at util.rs line 328 (and line
396 for an extension-less path): this override-file failure is fatal and
no hostname list, baseline-only or otherwise, is ever returned, so not
every override-file failure is non-fatal as the claim states. -/
theorem C6_counterexample :
    compile_cdn_list ["b.com"] (.readFailed true) = .panicked ∧
    compile_cdn_list ["b.com"] (.readFailed false) = .panicked ∧
    ∀ l : List String, compile_cdn_list ["b.com"] (.readFailed true) ≠ .ok l := by
  refine ⟨rfl, rfl, ?_⟩
  intro l h
  exact CdnResult.noConfusion h

/-- C6 amended: for every override situation that does not hit the read
unwrap - no path, file fails to open, unparsable structured file, txt
file, extension-less file, unrecognized extension - the compiled CDN
list contains every baseline hostname, has no duplicates and is sorted;
open failures, parse failures and unrecognized extensions are non-fatal
and yield the baseline-only set; but a file that opens and then fails to
read panics on the unwrap instead of returning anything.  Stated for any
baseline that is itself sorted and duplicate-free, which is how the spec
CDNSet invariant describes the built-in constant (the constant itself
lives in src/twitch/models.rs, outside the given sources). -/
theorem C6_cdn_list_invariant :
    ∀ baseline : List String,
      baseline.Pairwise str_le_rel → baseline.Nodup →
      (∀ src : CdnSource, (∀ b : Bool, src ≠ .readFailed b) →
        ∃ l : List String,
          compile_cdn_list baseline src = .ok l ∧
          (∀ c ∈ baseline, c ∈ l) ∧ l.Pairwise str_le_rel ∧ l.Nodup) ∧
      (∀ b : Bool, compile_cdn_list baseline (.readFailed b) = .panicked) ∧
      compile_cdn_list baseline .openFailed = .ok baseline ∧
      compile_cdn_list baseline .structuredErr = .ok baseline ∧
      compile_cdn_list baseline .unknownExt = .ok baseline := by
  intro baseline hs hn
  refine ⟨?_, fun b => rfl, rfl, rfl, rfl⟩
  intro src hne
  cases src with
  | noPath => exact ⟨baseline, rfl, fun c hc => hc, hs, hn⟩
  | openFailed => exact ⟨baseline, rfl, fun c hc => hc, hs, hn⟩
  | readFailed b => exact absurd rfl (hne b)
  | structuredErr => exact ⟨baseline, rfl, fun c hc => hc, hs, hn⟩
  | unknownExt => exact ⟨baseline, rfl, fun c hc => hc, hs, hn⟩
  | structuredOk cdns =>
    exact ⟨_, rfl, fun c hc => mem_sort_dedup.mpr (List.mem_append.mpr (Or.inl hc)),
      sort_dedup_pairwise _, sort_dedup_nodup _⟩
  | txtFile c =>
    exact ⟨_, rfl, fun c hc => mem_sort_dedup.mpr (List.mem_append.mpr (Or.inl hc)),
      sort_dedup_pairwise _, sort_dedup_nodup _⟩
  | noExtFile c =>
    exact ⟨_, rfl, fun c hc => mem_sort_dedup.mpr (List.mem_append.mpr (Or.inl hc)),
      sort_dedup_pairwise _, sort_dedup_nodup _⟩

/-- C6 witness: the amended invariant applied to the spec-modelled
baseline and a concrete txt override. -/
theorem C6_cdn_list_witness :
    ∃ l : List String,
      compile_cdn_list CDN_URLS_spec (.txtFile "test.cloudflare.net\n") =
        .ok l ∧
      "d1m7jfoe9zdc1j.cloudfront.net" ∈ l ∧ l.Nodup := by
  have h := (C6_cdn_list_invariant CDN_URLS_spec (by decide) (by decide)).1
    (.txtFile "test.cloudflare.net\n") (fun b hb => CdnSource.noConfusion hb)
  rcases h with ⟨l, hl, hmem, _, hnodup⟩
  exact ⟨l, hl, hmem _ (by decide), hnodup⟩

/-- C7 counterexample: the txt branch does not trim and does not drop
blank lines - the file with a trailing space on its first line and an
empty middle line yields an untrimmed entry and an empty entry, unlike
the trimmed, blank-dropping reading of the spec. -/
theorem C7_counterexample :
    compile_cdn_list ["b.com"] (.txtFile "a.com \n\nz.com") =
      .ok ["", "a.com ", "b.com", "z.com"] ∧
    compile_txt_spec ["b.com"] "a.com \n\nz.com" =
      ["a.com", "b.com", "z.com"] ∧
    compile_cdn_list ["b.com"] (.txtFile "a.com \n\nz.com") ≠
      .ok (compile_txt_spec ["b.com"] "a.com \n\nz.com") := by
  exact ⟨by decide, by decide, by decide⟩

/-- C7 amended: a txt override is split into verbatim lines - no
per-line trimming, blank lines kept as empty entries - and unioned with
the baseline, then sorted and deduplicated; an extension-less override
first has every whitespace char removed from its whole contents (fusing
all lines into a single entry) and the remainder is unioned the same
way. -/
theorem C7_txt_branch_amended :
    ∀ (baseline : List String) (contents : String),
      (∃ l : List String,
        compile_cdn_list baseline (.txtFile contents) = .ok l ∧
        l.Pairwise str_le_rel ∧
        ∀ x : String, x ∈ l ↔ x ∈ baseline ∨ x ∈ rust_lines contents) ∧
      (∃ l : List String,
        compile_cdn_list baseline (.noExtFile contents) = .ok l ∧
        l.Pairwise str_le_rel ∧
        ∀ x : String,
          x ∈ l ↔ x ∈ baseline ∨ x ∈ rust_lines (strip_whitespace contents)) := by
  intro baseline contents
  refine ⟨⟨sort_dedup (baseline ++ rust_lines contents), rfl,
      sort_dedup_pairwise _, ?_⟩,
    ⟨sort_dedup (baseline ++ rust_lines (strip_whitespace contents)), rfl,
      sort_dedup_pairwise _, ?_⟩⟩ <;>
    intro x <;> exact mem_sort_dedup.trans List.mem_append

/-- C7 witness: the amended union characterization applied to the
spec-modelled baseline and a concrete single-hostname txt file. -/
theorem C7_txt_branch_witness :
    ∃ l : List String,
      compile_cdn_list CDN_URLS_spec (.txtFile "test.cloudflare.net\n") =
        .ok l ∧
      "test.cloudflare.net" ∈ l := by
  rcases (C7_txt_branch_amended CDN_URLS_spec "test.cloudflare.net\n").1 with
    ⟨l, hl, _, hmem⟩
  exact ⟨l, hl, (hmem _).mpr (Or.inr (by decide))⟩

/-- C1 counterexample: the gate in fix is a substring test on the whole
URL, not a host check - this URL has host evil.example.com (its second
non-slash component), which is neither twitch.tv nor cloudfront.net, yet
fix does not fail and proceeds to the network fetch stage. -/
theorem C1_counterexample :
    (split_non_slash "https://evil.example.com/twitch.tv/b/c")[1]? =
      some "evil.example.com" ∧
    "evil.example.com" ≠ "twitch.tv" ∧
    "evil.example.com" ≠ "cloudfront.net" ∧
    fix_start "https://evil.example.com/twitch.tv/b/c" =
      .netFetch "https://evil.example.com/twitch.tv/b/" ∧
    fix_start "https://evil.example.com/twitch.tv/b/c" ≠ .unsupportedHost := by
  exact ⟨by decide, by decide, by decide, by decide, by decide⟩

/-- C1 amended: fix fails immediately with the unsupported-host error,
before any network request (unsupportedHost is returned without reaching
the netFetch stage), exactly when the URL STRING contains neither the
substring twitch.tv nor the substring cloudfront.net. -/
theorem C1_host_gate_amended :
    ∀ url : String,
      fix_start url = .unsupportedHost ↔ fix_host_ok url = false := by
  intro url
  constructor
  · intro h
    cases hb : fix_host_ok url
    · rfl
    · simp only [fix_start, hb, if_true] at h
      split at h
      · exact FixStage.noConfusion h
      · split at h
        · exact FixStage.noConfusion h
        · split at h
          · exact FixStage.noConfusion h
          · exact FixStage.noConfusion h
  · intro h
    simp [fix_start, h]

/-- C1 witness: the amended gate applied at a URL containing neither
substring. -/
theorem C1_host_gate_witness :
    fix_start "https://example.com/a/b/c" = .unsupportedHost :=
  (C1_host_gate_amended "https://example.com/a/b/c").mpr (by decide)

/-- C10: for every URL that passes the substring gate, fix panics from
the unchecked indexing whenever the URL has fewer than four non-slash
components, and reaches the network stage (all three indexings in
bounds) whenever it has at least four. -/
theorem C10_index_bounds :
    ∀ url : String, fix_host_ok url = true →
      ((split_non_slash url).length < 4 → fix_start url = .panicIndexOOB) ∧
      (4 ≤ (split_non_slash url).length →
        ∃ b : String, fix_start url = .netFetch b) := by
  intro url h
  constructor
  · intro hlt
    have h3 : (split_non_slash url)[3]? = none :=
      List.getElem?_eq_none (by omega)
    cases h1 : (split_non_slash url)[1]? with
    | none => simp [fix_start, h, h1]
    | some p1 =>
      cases h2 : (split_non_slash url)[2]? with
      | none => simp [fix_start, h, h1, h2]
      | some p2 => simp [fix_start, h, h1, h2, h3]
  · intro hge
    have h1 : (split_non_slash url)[1]? = some ((split_non_slash url).get ⟨1, by omega⟩) :=
      List.getElem?_eq_getElem (by omega)
    have h2 : (split_non_slash url)[2]? = some ((split_non_slash url).get ⟨2, by omega⟩) :=
      List.getElem?_eq_getElem (by omega)
    have h3 : (split_non_slash url)[3]? = some ((split_non_slash url).get ⟨3, by omega⟩) :=
      List.getElem?_eq_getElem (by omega)
    refine ⟨"https://" ++ (split_non_slash url).get ⟨1, by omega⟩ ++ "/" ++
      (split_non_slash url).get ⟨2, by omega⟩ ++ "/" ++
      (split_non_slash url).get ⟨3, by omega⟩ ++ "/", ?_⟩
    simp [fix_start, h, h1, h2, h3]

/-- C10 witness: the accepted two-component URL of the claim panics. -/
theorem C10_index_bounds_witness :
    fix_host_ok "https://twitch.tv" = true ∧
    (split_non_slash "https://twitch.tv").length < 4 ∧
    fix_start "https://twitch.tv" = .panicIndexOOB :=
  ⟨by decide, by decide,
    (C10_index_bounds "https://twitch.tv" (by decide)).1 (by decide)⟩

/-- C4 counterexample: a segment whose URI already ends in -muted.ts but
does not contain unmuted - so M = 0 for this one-segment playlist - is
still emitted ending in -muted.ts, and it is not emitted unchanged
either: every output URI is prefixed with the base URL. -/
theorem C4_counterexample :
    strContains "390-muted.ts" "unmuted" = false ∧
    fix_pattern_segments (δ := Nat) "https://d.cloudfront.net/x/chunked/"
        [{ uri := "390-muted.ts", duration := 1 }] =
      [{ uri := "https://d.cloudfront.net/x/chunked/390-muted.ts",
          duration := 1 }] ∧
    strEndsWith "https://d.cloudfront.net/x/chunked/390-muted.ts"
      "-muted.ts" = true ∧
    "https://d.cloudfront.net/x/chunked/390-muted.ts" ≠ "390-muted.ts" := by
  exact ⟨by decide, by decide, by decide, by decide⟩

/-- C4 amended: pattern mode emits exactly one output segment per input
segment, in order, with the original duration; a URI containing unmuted
becomes the base-prefixed URL with its last 11 characters removed and
-muted.ts appended (hence ends in -muted.ts); any other URI is emitted as
the base URL plus the original URI, otherwise unchanged - such an entry
ends in -muted.ts exactly when the original URI already did. -/
theorem C4_pattern_mode_amended :
    ∀ (δ : Type) (base : String) (segs : List (MediaSeg δ)),
      (fix_pattern_segments base segs).length = segs.length ∧
      (∀ (i : Nat) (s : MediaSeg δ), segs[i]? = some s →
        (fix_pattern_segments base segs)[i]? =
          some { uri := pattern_rewrite base s.uri, duration := s.duration }) ∧
      (∀ uri : String, strContains uri "unmuted" = true →
        pattern_rewrite base uri =
          String.mk ((base ++ uri).data.take ((base ++ uri).data.length - 11))
            ++ "-muted.ts" ∧
        strEndsWith (pattern_rewrite base uri) "-muted.ts" = true) ∧
      (∀ uri : String, strContains uri "unmuted" = false →
        pattern_rewrite base uri = base ++ uri) := by
  intro δ base segs
  refine ⟨by simp [fix_pattern_segments], ?_, ?_, ?_⟩
  · intro i s hs
    simp [fix_pattern_segments, List.getElem?_map, hs]
  · intro uri h
    have he : pattern_rewrite base uri =
        String.mk ((base ++ uri).data.take ((base ++ uri).data.length - 11))
          ++ "-muted.ts" := by
      simp [pattern_rewrite, h]
    exact ⟨he, by rw [he]; exact strEndsWith_append _ _⟩
  · intro uri h
    simp [pattern_rewrite, h]

/-- C4 witness: the amended rewrite applied to a concrete one-segment
playlist whose URI contains unmuted. -/
theorem C4_pattern_mode_witness :
    (fix_pattern_segments (δ := Nat) "https://d.cloudfront.net/x/chunked/"
        [{ uri := "5-unmuted.ts", duration := 7 }])[0]? =
      some { uri := (pattern_rewrite "https://d.cloudfront.net/x/chunked/"
            "5-unmuted.ts"), duration := 7 } ∧
    strEndsWith (pattern_rewrite "https://d.cloudfront.net/x/chunked/"
      "5-unmuted.ts") "-muted.ts" = true :=
  ⟨(C4_pattern_mode_amended Nat "https://d.cloudfront.net/x/chunked/"
      [{ uri := "5-unmuted.ts", duration := 7 }]).2.1 0
      { uri := "5-unmuted.ts", duration := 7 } (by decide),
    ((C4_pattern_mode_amended Nat "https://d.cloudfront.net/x/chunked/"
      []).2.2.1 "5-unmuted.ts" (by decide)).2⟩

/-- C2 (code-bug evidence): when the playlist body fails to parse, fix
logs the error but still creates the output file and writes the
default-initialised playlist - default container fields, zero segments -
because the Err arm at src/twitch/vods.rs line 341 only logs and
execution falls through to the File::create call at line 351.  A write is
attempted for every parse outcome, so the operation never aborts without
writing. -/
theorem C2_parse_failure_still_writes :
    fix_file_written (μ := Nat) (δ := Nat) (ε := Unit) 0
        "https://d.cloudfront.net/x/chunked/" (.error ()) =
      some { meta := 0, segments := [] } ∧
    (∀ r : Except Unit (Nat × List (MediaSeg Nat)),
      (fix_file_written 0 "https://d.cloudfront.net/x/chunked/" r).isSome =
        true) ∧
    (∀ (m : Nat) (segs : List (MediaSeg Nat)),
      fix_file_written (ε := Unit) 0 "https://d.cloudfront.net/x/chunked/"
          (.ok (m, segs)) =
        some { meta := m,
               segments := (fix_pattern_segments
                 "https://d.cloudfront.net/x/chunked/" segs) }) := by
  refine ⟨rfl, ?_, fun m segs => rfl⟩
  intro r
  cases r <;> rfl

/-- C8 counterexample: in the clip bruteforce a 404 response is NOT an
expected miss - it falls into the suspected-throttling arm - while the
VOD bruteforcer does classify 404 as an expected miss, so the two loops
do not classify alike as claimed. -/
theorem C8_counterexample :
    clip_classify (.status 404) = .missThrottleFlagged ∧
    clip_classify (.status 404) ≠ .missExpected ∧
    vod_classify (.status 404) = .missExpected := by
  exact ⟨by decide, by decide, by decide⟩

/-- C8 amended: for VOD probing 200 is a hit, 403 and 404 are expected
misses, any other status is a miss flagged as suspected throttling and a
transport failure is a logged miss; for clip probing 200 is a hit, ONLY
403 is an expected miss, any other status - including 404 - is a miss
flagged as suspected throttling, and a transport failure is a logged
miss; exactly the 200-classified candidates are kept in the result
stream, and each candidate is probed by a single map step, so no retry
occurs. -/
theorem C8_classification_amended :
    (∀ code : Nat, vod_classify (.status code) =
      if code = 200 then .hit
      else if code = 403 ∨ code = 404 then .missExpected
      else .missThrottleFlagged) ∧
    vod_classify .transportError = .missTransport ∧
    (∀ code : Nat, clip_classify (.status code) =
      if code = 200 then .hit
      else if code = 403 then .missExpected
      else .missThrottleFlagged) ∧
    clip_classify .transportError = .missTransport ∧
    (∀ (rs : List (TwitchURL × ProbeResponse)) (t : TwitchURL),
      t ∈ (vod_fetches rs).filterMap id ↔
        ∃ r : ProbeResponse, (t, r) ∈ rs ∧ vod_classify r = .hit) := by
  refine ⟨?_, rfl, ?_, rfl, ?_⟩
  · intro code
    simp only [vod_classify]
    split_ifs <;> simp_all
  · intro code
    simp only [clip_classify]
  · intro rs t
    simp only [vod_fetches, List.filterMap_map, List.mem_filterMap,
      Function.comp]
    constructor
    · rintro ⟨⟨u, r⟩, hmem, heq⟩
      by_cases hc : vod_classify r = .hit
      · simp only [hc, if_pos rfl] at heq
        cases heq
        exact ⟨r, hmem, hc⟩
      · simp only [id] at heq
        rw [if_neg hc] at heq
        exact Option.noConfusion heq
    · rintro ⟨r, hmem, hc⟩
      exact ⟨(t, r), hmem, by simp [hc]⟩

/-- C8 witness: the kept-exactly-the-hits characterization applied to a
one-candidate batch answered with status 200. -/
theorem C8_classification_witness :
    { full_url := "u", hash := "h", timestamp := 0 : TwitchURL } ∈
      (vod_fetches [({ full_url := "u", hash := "h", timestamp := 0 },
        ProbeResponse.status 200)]).filterMap id :=
  (C8_classification_amended.2.2.2.2
      [({ full_url := "u", hash := "h", timestamp := 0 },
        ProbeResponse.status 200)]
      { full_url := "u", hash := "h", timestamp := 0 }).mpr
    ⟨.status 200, by decide, by decide⟩
